import Mathlib

/-!
Verification of the typing subsystem of a rich-text editor:
the `InputCommand` (from `src/packages/ckeditor5-typing/src/inputcommand.js`)
and the `ChangeBuffer` batching policy it owns.

The document model, positions, ranges and selections are external
collaborators of the command; they are embedded here at their interface
boundary: a position is an offset, the document is a flat sequence of
characters, a range is an ordered pair of positions, and the batch is an
opaque handle identified by a natural number.

Besides the resulting state, each operation also returns the list of
externally observable calls it makes (entering and leaving the atomic
change scope, `batch.remove`, `batch.weakInsert`, `selection.collapse`,
`buffer.input`, teardown calls), so that ordering and atomicity
properties can be stated about one execution.
-/

namespace CKTyping

/-- A position in the flat document model: an offset into the character
sequence. -/
abbrev Position := Nat

/-- `position.getShiftedBy(n)`: the position shifted forward by `n` input
units. -/
def Position.getShiftedBy (p : Position) (n : Nat) : Position := p + n

/-- A model range: an ordered pair of positions (`start`, `end`); the
`end` position is named `stop` here because `end` is reserved. -/
structure Range where
  start : Position
  stop : Position
deriving DecidableEq

/-- `range.isCollapsed`: true when the range is zero-width. -/
def Range.isCollapsed (r : Range) : Bool := r.start == r.stop

/-- A selection, at the interface boundary used by the command: it
exposes its first range. -/
structure Selection where
  firstRange : Range
deriving DecidableEq

/-- `selection.getFirstRange()`. -/
def Selection.getFirstRange (s : Selection) : Range := s.firstRange

/-- `selection.collapse(position)` produces a collapsed range at the
given position. -/
def collapsedAt (p : Position) : Range := { start := p, stop := p }

/-- Document content: a flat sequence of characters. -/
abbrev Doc := List Char

/-- `batch.remove(range)`: the document with the content of the range
removed. -/
def removeRange (d : Doc) (r : Range) : Doc := d.take r.start ++ d.drop r.stop

/-- `batch.weakInsert(position, text)`: the document with `text`
inserted at the position; the insertion is recorded into the current
batch without forcing a new undo boundary. -/
def weakInsert (d : Doc) (p : Position) (t : List Char) : Doc :=
  d.take p ++ t ++ d.drop p

/-- Modelled from the spec: `src/packages/ckeditor5-typing/src/changebuffer.js`
is imported by the command but is not in the source tree, so the
`ChangeBuffer` state is taken from the specification, §3:
`{ currentBatch, unitsSinceSplit, splitThreshold }`; the batch handle is
an opaque identifier and a fresh batch gets the next identifier. -/
structure ChangeBuffer where
  currentBatch : Nat
  unitsSinceSplit : Nat
  splitThreshold : Nat
deriving DecidableEq

/-- Modelled from the spec: `changebuffer.js` is not in the source tree.
Transition on `input(n)` per §4.2: add `n` to `unitsSinceSplit`; if the
new count reaches `splitThreshold`, open a fresh batch with the counter
reset to `0`. -/
def ChangeBuffer.input (b : ChangeBuffer) (n : Nat) : ChangeBuffer :=
  if b.splitThreshold ≤ b.unitsSinceSplit + n then
    { currentBatch := b.currentBatch + 1
      unitsSinceSplit := 0
      splitThreshold := b.splitThreshold }
  else
    { currentBatch := b.currentBatch
      unitsSinceSplit := b.unitsSinceSplit + n
      splitThreshold := b.splitThreshold }

/-- Which selection object a `collapse` call targets: the document's own
selection (`editor.document.selection`) or the data model's selection
(`editor.data.model.selection`). -/
inductive SelTarget where
  | doc
  | dataModel
deriving DecidableEq

/-- The externally observable calls one operation makes, in order. -/
inductive Event where
  | enqueueEnter
  | enqueueExit
  | removeOp (batch : Nat) (r : Range)
  | weakInsertOp (batch : Nat) (pos : Position) (text : List Char)
  | collapseSel (target : SelTarget) (pos : Position)
  | inputUnits (n : Nat)
  | superDestroy
  | bufferDestroy
deriving DecidableEq

/-- The slice of editor state the command touches: the document content,
the document's own selection (`editor.document.selection`, read for the
default range), the data model's selection
(`editor.data.model.selection`, the one `collapse` is called on), and
the command's change buffer (`this._buffer`). -/
structure EditorState where
  doc : Doc
  docSelection : Selection
  dataModelSelection : Range
  buffer : ChangeBuffer
deriving DecidableEq

/-- The options object of `execute`: `text`, `range` and
`resultPosition` are all optional. -/
structure Options where
  text : Option (List Char)
  range : Option Range
  resultPosition : Option Position
deriving DecidableEq

/-- `InputCommand._doExecute(options)` from
`src/packages/ckeditor5-typing/src/inputcommand.js`: resolve the
defaults (`options.text || ''`, `options.range ||
doc.selection.getFirstRange()`), then inside one `doc.enqueueChanges`
scope remove the range content when the range is not collapsed, weakly
insert the text at the range start, collapse the data model's selection
to `resultPosition` when given, else to the range start shifted by the
number of insertions when the range was collapsed, and finally report
the insertions to the buffer. Returns the new state and the list of
observable calls in order. -/
def _doExecute (st : EditorState) (options : Options) : EditorState × List Event :=
  let text := options.text.getD []
  let textInsertions := text.length
  let range := options.range.getD st.docSelection.getFirstRange
  let resultPosition := options.resultPosition
  let isCollapsedRange := range.isCollapsed
  let docAfterRemove := if isCollapsedRange then st.doc else removeRange st.doc range
  let docAfterInsert := weakInsert docAfterRemove range.start text
  let selAfter :=
    match resultPosition with
    | some p => collapsedAt p
    | none =>
      if isCollapsedRange then
        collapsedAt (Position.getShiftedBy range.start textInsertions)
      else st.dataModelSelection
  let removeEvents :=
    if isCollapsedRange then ([] : List Event)
    else [Event.removeOp st.buffer.currentBatch range]
  let selEvents :=
    match resultPosition with
    | some p => [Event.collapseSel SelTarget.dataModel p]
    | none =>
      if isCollapsedRange then
        [Event.collapseSel SelTarget.dataModel
          (Position.getShiftedBy range.start textInsertions)]
      else ([] : List Event)
  ( { doc := docAfterInsert
      docSelection := st.docSelection
      dataModelSelection := selAfter
      buffer := st.buffer.input textInsertions },
    Event.enqueueEnter ::
      (removeEvents ++
        [Event.weakInsertOp st.buffer.currentBatch range.start text] ++
        selEvents ++
        [Event.inputUnits textInsertions, Event.enqueueExit]) )

/-- The `InputCommand` lifecycle state: `this._buffer`, which holds the
owned `ChangeBuffer` until `destroy` releases it (`this._buffer =
null`). -/
structure InputCommand where
  _buffer : Option ChangeBuffer
deriving DecidableEq

/-- The `buffer` read accessor: `get buffer() { return this._buffer; }`. -/
def InputCommand.buffer (c : InputCommand) : Option ChangeBuffer := c._buffer

/-- `InputCommand.destroy()`: `super.destroy()`, then
`this._buffer.destroy()`, then `this._buffer = null`. Calling it when
the buffer reference is already released dereferences `null` and fails,
hence the `Option` result. -/
def InputCommand.destroy (c : InputCommand) : Option (InputCommand × List Event) :=
  match c._buffer with
  | some _ => some ({ _buffer := none }, [Event.superDestroy, Event.bufferDestroy])
  | none => none

/-- The number of input units one `execute` call reports to the buffer:
the length of the resolved text. -/
def optUnits (o : Options) : Nat := (o.text.getD []).length

/-- A sequence of `execute` calls, threading the editor state. -/
def runExecs (st : EditorState) (l : List Options) : EditorState :=
  l.foldl (fun s o => (_doExecute s o).1) st

/-- Cumulative inserted-unit count of the first `i` calls of a
sequence. -/
def cumUnits (l : List Options) (i : Nat) : Nat :=
  ((l.take i).map optUnits).sum

/-- A concrete buffer used to instantiate theorems on concrete data. -/
def sampleBuffer : ChangeBuffer :=
  { currentBatch := 0, unitsSinceSplit := 0, splitThreshold := 5 }

/-- A concrete buffer that already holds one unaccounted unit. -/
def sampleBufferMid : ChangeBuffer :=
  { currentBatch := 0, unitsSinceSplit := 1, splitThreshold := 5 }

/-- A concrete editor state used to instantiate theorems. -/
def sampleState : EditorState :=
  { doc := ['a', 'b', 'c', 'd']
    docSelection := { firstRange := { start := 1, stop := 3 } }
    dataModelSelection := { start := 1, stop := 3 }
    buffer := sampleBuffer }

/-- The concrete state with the partially filled buffer. -/
def sampleStateMid : EditorState :=
  { sampleState with buffer := sampleBufferMid }

/-- A concrete editor state with split threshold 3 and a fresh buffer,
for the batching scenario. -/
def seqState : EditorState :=
  { doc := []
    docSelection := { firstRange := { start := 0, stop := 0 } }
    dataModelSelection := { start := 0, stop := 0 }
    buffer := { currentBatch := 0, unitsSinceSplit := 0, splitThreshold := 3 } }

/-- A concrete call sequence inserting 1, 1 and 2 units at advancing
collapsed positions: the cumulative count first reaches the threshold 3
at the third call. -/
def seqCalls : List Options :=
  [ { text := some ['a'], range := some { start := 0, stop := 0 }, resultPosition := none }
  , { text := some ['b'], range := some { start := 1, stop := 1 }, resultPosition := none }
  , { text := some ['d', 'e'], range := some { start := 2, stop := 2 }, resultPosition := none } ]

end CKTyping

namespace CKTyping

/-! Helper lemmas about the buffer, execution sequences and sums. -/

/-- Reporting `n` units that keep the count below the threshold only
bumps the counter. -/
theorem input_of_lt (b : ChangeBuffer) (n : Nat)
    (h : b.unitsSinceSplit + n < b.splitThreshold) :
    b.input n = { currentBatch := b.currentBatch, unitsSinceSplit := b.unitsSinceSplit + n,
                  splitThreshold := b.splitThreshold } := by
  simp [ChangeBuffer.input, Nat.not_le.mpr h]

/-- Reporting `n` units that make the count reach the threshold opens a
fresh batch and resets the counter. -/
theorem input_of_ge (b : ChangeBuffer) (n : Nat)
    (h : b.splitThreshold ≤ b.unitsSinceSplit + n) :
    b.input n = { currentBatch := b.currentBatch + 1, unitsSinceSplit := 0,
                  splitThreshold := b.splitThreshold } := by
  simp [ChangeBuffer.input, h]

/-- One execution changes the buffer exactly by reporting the resolved
text length. -/
theorem exec_buffer (st : EditorState) (o : Options) :
    ((_doExecute st o).1).buffer = st.buffer.input (optUnits o) := rfl

/-- An empty call sequence leaves the state alone. -/
theorem runExecs_nil (st : EditorState) : runExecs st [] = st := rfl

/-- Peeling the first call off a sequence. -/
theorem runExecs_cons (st : EditorState) (o : Options) (l : List Options) :
    runExecs st (o :: l) = runExecs ((_doExecute st o).1) l := rfl

/-- Splitting a call sequence. -/
theorem runExecs_append (st : EditorState) (l1 l2 : List Options) :
    runExecs st (l1 ++ l2) = runExecs (runExecs st l1) l2 := by
  simp [runExecs, List.foldl_append]

/-- The sum of a longer prefix of a list of naturals dominates that of a
shorter one. -/
theorem sum_take_mono (xs : List Nat) (i j : Nat) (h : i ≤ j) :
    (xs.take i).sum ≤ (xs.take j).sum := by
  have key : xs.take i = (xs.take j).take i := by
    rw [List.take_take, Nat.min_eq_left h]
  rw [key]
  conv_rhs => rw [← List.take_append_drop i (xs.take j)]
  rw [List.sum_append]
  exact Nat.le_add_right _ _

/-- Prefix sums grow by the next element. -/
theorem sum_take_succ (xs : List Nat) (i : Nat) (h : i < xs.length) :
    (xs.take (i + 1)).sum = (xs.take i).sum + xs.get ⟨i, h⟩ := by
  rw [List.take_succ]
  rw [List.getElem?_eq_getElem h]
  rw [Option.toList_some]
  rw [List.sum_append]
  simp

/-- Cumulative unit counts are monotone in the number of calls. -/
theorem cum_mono (l : List Options) (i j : Nat) (h : i ≤ j) :
    cumUnits l i ≤ cumUnits l j := by
  simp only [cumUnits, List.map_take]
  exact sum_take_mono _ _ _ h

/-- The cumulative count after one more call grows by that call's
units. -/
theorem cum_succ (l : List Options) (i : Nat) (h : i < l.length) :
    cumUnits l (i + 1) = cumUnits l i + optUnits (l.get ⟨i, h⟩) := by
  simp only [cumUnits, List.map_take]
  have hm : i < (l.map optUnits).length := by simpa using h
  rw [sum_take_succ _ _ hm]
  simp

/-- As long as the cumulative units stay below the threshold, a call
sequence keeps the same batch and accumulates the counter. -/
theorem run_no_split (l : List Options) : ∀ st : EditorState,
    st.buffer.unitsSinceSplit + (l.map optUnits).sum < st.buffer.splitThreshold →
    (runExecs st l).buffer =
      { currentBatch := st.buffer.currentBatch,
        unitsSinceSplit := st.buffer.unitsSinceSplit + (l.map optUnits).sum,
        splitThreshold := st.buffer.splitThreshold } := by
  induction l with
  | nil => intro st _; simp [runExecs_nil]
  | cons o l ih =>
    intro st h
    rw [runExecs_cons]
    have hn : st.buffer.unitsSinceSplit + optUnits o < st.buffer.splitThreshold := by
      refine Nat.lt_of_le_of_lt ?_ h
      simp [Nat.add_le_add_iff_left, Nat.le_add_right]
    have hb : ((_doExecute st o).1).buffer =
        { currentBatch := st.buffer.currentBatch,
          unitsSinceSplit := st.buffer.unitsSinceSplit + optUnits o,
          splitThreshold := st.buffer.splitThreshold } := by
      rw [exec_buffer]; exact input_of_lt _ _ hn
    have := ih ((_doExecute st o).1) (by rw [hb]; simpa [Nat.add_assoc] using h)
    rw [this, hb]
    simp [Nat.add_assoc]

/-! The claim theorems. -/

/-- Claim C1: for every non-collapsed range R and text T, `execute`
removes R's content and then inserts T at R's original start position,
and both mutations happen inside the one `enqueueChanges` scope: the
observable call trace is exactly one scope entry, the remove, the weak
insert, possibly one selection collapse, the buffer report, and one
scope exit. -/
theorem execute_nonCollapsed_removes_then_inserts_atomically
    (st : EditorState) (T : List Char) (R : Range) (rp : Option Position)
    (h : R.isCollapsed = false) :
    ((_doExecute st { text := some T, range := some R, resultPosition := rp }).1).doc
        = weakInsert (removeRange st.doc R) R.start T ∧
    (_doExecute st { text := some T, range := some R, resultPosition := rp }).2
        = Event.enqueueEnter ::
            Event.removeOp st.buffer.currentBatch R ::
            Event.weakInsertOp st.buffer.currentBatch R.start T ::
            ((match rp with
              | some p => [Event.collapseSel SelTarget.dataModel p]
              | none => ([] : List Event)) ++
             [Event.inputUnits T.length, Event.enqueueExit]) := by
  cases rp <;> simp [_doExecute, h]

/-- Witness for C1 at a concrete state: replacing the non-collapsed
range [1,3) of "abcd" with "x". -/
theorem execute_nonCollapsed_removes_then_inserts_atomically_witness :
    (Range.mk 1 3).isCollapsed = false ∧
    ((_doExecute sampleState
        { text := some ['x'], range := some (Range.mk 1 3), resultPosition := none }).1).doc
      = weakInsert (removeRange sampleState.doc (Range.mk 1 3)) (Range.mk 1 3).start ['x'] :=
  ⟨by decide,
    (execute_nonCollapsed_removes_then_inserts_atomically
      sampleState ['x'] (Range.mk 1 3) none (by decide)).1⟩

/-- Claim C2: for a collapsed range at position P and text T with no
result position, the post-execution data model selection is collapsed at
P shifted forward by the length of T. -/
theorem execute_collapsed_selection_shifted
    (st : EditorState) (T : List Char) (R : Range)
    (h : R.isCollapsed = true) :
    ((_doExecute st { text := some T, range := some R, resultPosition := none }).1).dataModelSelection
      = collapsedAt (Position.getShiftedBy R.start T.length) := by
  simp [_doExecute, Option.getD, h]

/-- Witness for C2: typing "xy" at the collapsed position 2 leaves the
selection collapsed at 4. -/
theorem execute_collapsed_selection_shifted_witness :
    (Range.mk 2 2).isCollapsed = true ∧
    ((_doExecute sampleState
        { text := some ['x', 'y'], range := some (Range.mk 2 2), resultPosition := none }).1).dataModelSelection
      = collapsedAt (Position.getShiftedBy 2 2) :=
  ⟨by decide,
    execute_collapsed_selection_shifted sampleState ['x', 'y'] (Range.mk 2 2) (by decide)⟩

/-- Claim C3: whenever an explicit result position X is supplied, the
post-execution data model selection is collapsed exactly at X,
regardless of the text and of the range's shape or presence. -/
theorem execute_resultPosition_collapses_there
    (st : EditorState) (t : Option (List Char)) (r : Option Range) (X : Position) :
    ((_doExecute st { text := t, range := r, resultPosition := some X }).1).dataModelSelection
      = collapsedAt X := by
  simp [_doExecute]

/-- Claim C4: with a fresh buffer of threshold K, over a sequence of
executions whose cumulative inserted-unit count first reaches K at the
j-th call, the buffer batch before each of calls 1..j is the initial
one, while after call j the buffer holds a distinct fresh batch with the
counter reset to 0; and `input n` adds `n` to the counter, opening a
fresh batch with counter 0 exactly when the new count reaches the
threshold. -/
theorem buffer_split_after_threshold (st : EditorState) (l : List Options) (j : Nat)
    (hj : 1 ≤ j) (hjl : j ≤ l.length)
    (hz : st.buffer.unitsSinceSplit = 0)
    (hlt : cumUnits l (j - 1) < st.buffer.splitThreshold)
    (hge : st.buffer.splitThreshold ≤ cumUnits l j) :
    (∀ i, i < j → (runExecs st (l.take i)).buffer.currentBatch = st.buffer.currentBatch) ∧
    (runExecs st (l.take j)).buffer =
      { currentBatch := st.buffer.currentBatch + 1, unitsSinceSplit := 0,
        splitThreshold := st.buffer.splitThreshold } ∧
    (runExecs st (l.take j)).buffer.currentBatch ≠ st.buffer.currentBatch ∧
    (∀ (b : ChangeBuffer) (n : Nat),
      (b.splitThreshold ≤ b.unitsSinceSplit + n →
        b.input n = { currentBatch := b.currentBatch + 1, unitsSinceSplit := 0,
                      splitThreshold := b.splitThreshold }) ∧
      (b.unitsSinceSplit + n < b.splitThreshold →
        b.input n = { currentBatch := b.currentBatch, unitsSinceSplit := b.unitsSinceSplit + n,
                      splitThreshold := b.splitThreshold })) := by
  have hj1 : j - 1 < l.length := by omega
  have parta : ∀ i, i < j →
      (runExecs st (l.take i)).buffer.currentBatch = st.buffer.currentBatch := by
    intro i hi
    have hii : i ≤ j - 1 := by omega
    have hsum : cumUnits l i ≤ cumUnits l (j - 1) := cum_mono _ _ _ hii
    have h1 : st.buffer.unitsSinceSplit + ((l.take i).map optUnits).sum <
        st.buffer.splitThreshold := by
      rw [hz, Nat.zero_add]
      exact Nat.lt_of_le_of_lt hsum hlt
    rw [run_no_split (l.take i) st h1]
  have hbuf1 : (runExecs st (l.take (j - 1))).buffer =
      { currentBatch := st.buffer.currentBatch,
        unitsSinceSplit := cumUnits l (j - 1),
        splitThreshold := st.buffer.splitThreshold } := by
    have h1 : st.buffer.unitsSinceSplit + ((l.take (j - 1)).map optUnits).sum <
        st.buffer.splitThreshold := by
      rw [hz, Nat.zero_add]; exact hlt
    rw [run_no_split (l.take (j - 1)) st h1, hz, Nat.zero_add]
    rfl
  have htake : l.take j = l.take (j - 1) ++ [l.get ⟨j - 1, hj1⟩] := by
    have hjj : j = (j - 1) + 1 := by omega
    conv_lhs => rw [hjj]
    rw [List.take_succ, List.getElem?_eq_getElem hj1]
    simp
  have hstep : runExecs st (l.take j) =
      (_doExecute (runExecs st (l.take (j - 1))) (l.get ⟨j - 1, hj1⟩)).1 := by
    rw [htake, runExecs_append]
    rfl
  have hcum : cumUnits l (j - 1) + optUnits (l.get ⟨j - 1, hj1⟩) = cumUnits l j := by
    have hs := cum_succ l (j - 1) hj1
    have hjj : (j - 1) + 1 = j := by omega
    rw [hjj] at hs
    omega
  have partb : (runExecs st (l.take j)).buffer =
      { currentBatch := st.buffer.currentBatch + 1, unitsSinceSplit := 0,
        splitThreshold := st.buffer.splitThreshold } := by
    rw [hstep, exec_buffer, hbuf1]
    refine input_of_ge _ _ ?_
    show st.buffer.splitThreshold ≤ cumUnits l (j - 1) + optUnits (l.get ⟨j - 1, hj1⟩)
    omega
  refine ⟨parta, partb, ?_, ?_⟩
  · rw [partb]
    simp
  · intro b n
    exact ⟨input_of_ge b n, input_of_lt b n⟩

/-- Witness for C4: threshold 3, insertions of 1, 1 and 2 units; the
cumulative count first reaches the threshold at the third call, after
which the current batch is a new one. -/
theorem buffer_split_after_threshold_witness :
    (1 ≤ 3 ∧ 3 ≤ seqCalls.length ∧ seqState.buffer.unitsSinceSplit = 0 ∧
      cumUnits seqCalls 2 < seqState.buffer.splitThreshold ∧
      seqState.buffer.splitThreshold ≤ cumUnits seqCalls 3) ∧
    (runExecs seqState (seqCalls.take 3)).buffer.currentBatch ≠ seqState.buffer.currentBatch :=
  ⟨⟨by decide, by decide, by decide, by decide, by decide⟩,
    (buffer_split_after_threshold seqState seqCalls 3
      (by decide) (by decide) (by decide) (by decide) (by decide)).2.2.1⟩

/-- Claim C5: in every single execution the buffer is reported to
exactly once, and only after the remove (when the range is not
collapsed) and the weak insert have been issued: the call trace is an
input-free prefix containing the mutations, followed by the one
`input` call and the scope exit. -/
theorem buffer_input_once_after_mutations (st : EditorState) (opts : Options) :
    ∃ pre : List Event,
      (_doExecute st opts).2 = pre ++ [Event.inputUnits (optUnits opts), Event.enqueueExit] ∧
      (∀ n, Event.inputUnits n ∉ pre) ∧
      Event.weakInsertOp st.buffer.currentBatch
        (opts.range.getD st.docSelection.getFirstRange).start (opts.text.getD []) ∈ pre ∧
      ((opts.range.getD st.docSelection.getFirstRange).isCollapsed = false →
        Event.removeOp st.buffer.currentBatch (opts.range.getD st.docSelection.getFirstRange) ∈ pre) := by
  obtain ⟨t, r, rp⟩ := opts
  by_cases h : (r.getD st.docSelection.getFirstRange).isCollapsed
  · cases rp with
    | none =>
      refine ⟨[Event.enqueueEnter,
        Event.weakInsertOp st.buffer.currentBatch
          (r.getD st.docSelection.getFirstRange).start (t.getD []),
        Event.collapseSel SelTarget.dataModel
          (Position.getShiftedBy (r.getD st.docSelection.getFirstRange).start
            (t.getD []).length)], ?_, ?_, ?_, ?_⟩ <;> simp [_doExecute, optUnits, h]
    | some p =>
      refine ⟨[Event.enqueueEnter,
        Event.weakInsertOp st.buffer.currentBatch
          (r.getD st.docSelection.getFirstRange).start (t.getD []),
        Event.collapseSel SelTarget.dataModel p], ?_, ?_, ?_, ?_⟩ <;>
          simp [_doExecute, optUnits, h]
  · cases rp with
    | none =>
      refine ⟨[Event.enqueueEnter,
        Event.removeOp st.buffer.currentBatch (r.getD st.docSelection.getFirstRange),
        Event.weakInsertOp st.buffer.currentBatch
          (r.getD st.docSelection.getFirstRange).start (t.getD [])], ?_, ?_, ?_, ?_⟩ <;>
          simp [_doExecute, optUnits, h]
    | some p =>
      refine ⟨[Event.enqueueEnter,
        Event.removeOp st.buffer.currentBatch (r.getD st.docSelection.getFirstRange),
        Event.weakInsertOp st.buffer.currentBatch
          (r.getD st.docSelection.getFirstRange).start (t.getD []),
        Event.collapseSel SelTarget.dataModel p], ?_, ?_, ?_, ?_⟩ <;>
          simp [_doExecute, optUnits, h]

/-- Claim C6: executing with a collapsed range at P and empty text
leaves the document unchanged, collapses the selection at P itself, and
leaves the buffer counter and current batch untouched (the buffer
invariant that the counter is below the threshold is assumed). -/
theorem execute_empty_text_collapsed_noop (st : EditorState) (R : Range)
    (h : R.isCollapsed = true)
    (hinv : st.buffer.unitsSinceSplit < st.buffer.splitThreshold) :
    ((_doExecute st { text := some [], range := some R, resultPosition := none }).1).doc = st.doc ∧
    ((_doExecute st { text := some [], range := some R, resultPosition := none }).1).dataModelSelection
        = collapsedAt R.start ∧
    ((_doExecute st { text := some [], range := some R, resultPosition := none }).1).buffer
        = st.buffer := by
  refine ⟨?_, ?_, ?_⟩
  · simp [_doExecute, h, weakInsert]
  · simp [_doExecute, h, Position.getShiftedBy, collapsedAt]
  · simp [_doExecute, h, ChangeBuffer.input, Nat.not_le.mpr hinv]

/-- Witness for C6: empty input at the collapsed position 2 in the
concrete state with one unaccounted unit. -/
theorem execute_empty_text_collapsed_noop_witness :
    ((Range.mk 2 2).isCollapsed = true ∧
      sampleStateMid.buffer.unitsSinceSplit < sampleStateMid.buffer.splitThreshold) ∧
    ((_doExecute sampleStateMid
        { text := some [], range := some (Range.mk 2 2), resultPosition := none }).1).doc
      = sampleStateMid.doc :=
  ⟨⟨by decide, by decide⟩,
    (execute_empty_text_collapsed_noop sampleStateMid (Range.mk 2 2)
      (by decide) (by decide)).1⟩

/-- Claim C7: whenever `destroy` succeeds it performs the base
teardown first and then destroys the owned buffer, and afterwards the
`buffer` accessor returns the released (null) reference. -/
theorem destroy_releases_buffer_after_super
    (c : InputCommand) (c2 : InputCommand) (tr : List Event)
    (h : c.destroy = some (c2, tr)) :
    tr = [Event.superDestroy, Event.bufferDestroy] ∧ c2.buffer = none := by
  obtain ⟨b⟩ := c
  cases b with
  | none => simp [InputCommand.destroy] at h
  | some b0 =>
    simp [InputCommand.destroy] at h
    obtain ⟨h1, h2⟩ := h
    constructor
    · exact h2.symm
    · simp [← h1, InputCommand.buffer]

/-- Witness for C7: destroying a command that owns the concrete sample
buffer. -/
theorem destroy_releases_buffer_after_super_witness :
    (InputCommand.mk (some sampleBuffer)).destroy
        = some (InputCommand.mk none, [Event.superDestroy, Event.bufferDestroy]) ∧
    (InputCommand.mk none).buffer = none :=
  ⟨rfl,
    (destroy_releases_buffer_after_super (InputCommand.mk (some sampleBuffer))
      (InputCommand.mk none) [Event.superDestroy, Event.bufferDestroy] rfl).2⟩

/-- Claim C8: executing with a non-collapsed range and no result
position makes no selection-repositioning call: the data model selection
is left as it was and no `collapse` call appears in the trace. -/
theorem execute_nonCollapsed_no_reposition (st : EditorState)
    (t : Option (List Char)) (R : Range)
    (h : R.isCollapsed = false) :
    ((_doExecute st { text := t, range := some R, resultPosition := none }).1).dataModelSelection
        = st.dataModelSelection ∧
    (∀ tgt p, Event.collapseSel tgt p ∉
        (_doExecute st { text := t, range := some R, resultPosition := none }).2) := by
  constructor <;> simp [_doExecute, h]

/-- Witness for C8: replacing the non-collapsed range [1,3) with "x"
leaves the data model selection untouched. -/
theorem execute_nonCollapsed_no_reposition_witness :
    (Range.mk 1 3).isCollapsed = false ∧
    ((_doExecute sampleState
        { text := some ['x'], range := some (Range.mk 1 3), resultPosition := none }).1).dataModelSelection
      = sampleState.dataModelSelection :=
  ⟨by decide,
    (execute_nonCollapsed_no_reposition sampleState (some ['x']) (Range.mk 1 3) (by decide)).1⟩

/-- Claim C9: an omitted `text` option behaves exactly like the empty
string, and an omitted `range` option behaves exactly like the first
range of the document's current selection. -/
theorem execute_defaults_text_empty_range_first :
    (∀ (st : EditorState) (r : Option Range) (rp : Option Position),
      _doExecute st { text := none, range := r, resultPosition := rp }
        = _doExecute st { text := some [], range := r, resultPosition := rp }) ∧
    (∀ (st : EditorState) (t : Option (List Char)) (rp : Option Position),
      _doExecute st { text := t, range := none, resultPosition := rp }
        = _doExecute st { text := t, range := some st.docSelection.getFirstRange,
                          resultPosition := rp }) :=
  ⟨fun _ _ _ => rfl, fun _ _ _ => rfl⟩

/-- Claim C10: every execution leaves the document's own selection
untouched (it is only read for the default range), and every `collapse`
call in the trace targets the data model's selection. -/
theorem execute_touches_only_dataModel_selection (st : EditorState) (opts : Options) :
    ((_doExecute st opts).1).docSelection = st.docSelection ∧
    (∀ tgt p, Event.collapseSel tgt p ∈ (_doExecute st opts).2 → tgt = SelTarget.dataModel) := by
  obtain ⟨t, r, rp⟩ := opts
  by_cases h : (r.getD st.docSelection.getFirstRange).isCollapsed <;>
    cases rp <;> constructor <;> simp [_doExecute, h]

end CKTyping
